import Mathlib

/-!
A shallow embedding, over `List Char`, of the Extraction–Validation Loop of
`gemini_model.py` (class `GeminiInference`), together with theorems settling
the behavioural claims about it.

Strings are modelled as `List Char` (ASCII payloads; Python's `str.upper`,
`str.lower`, `str.strip` are modelled on the ASCII whitespace set).  The
external inference service is modelled as an environment of response streams
indexed by call count: the session logic is deterministic given those streams,
so every concrete execution of the Python code corresponds to one environment,
and universally quantified theorems over environments cover all executions.
-/

namespace AutoParts

/-- Python's default `str.strip` whitespace set (ASCII subset). -/
def pyIsSpace (c : Char) : Bool :=
  c = ' ' || c = '\t' || c = '\n' || c = '\x0d' || c = '\x0b' || c = '\x0c'

/-- Python `s.strip()`: drop leading and trailing whitespace. -/
def pyStrip (s : List Char) : List Char :=
  ((s.dropWhile pyIsSpace).reverse.dropWhile pyIsSpace).reverse

/-- Python `s.upper()` (ASCII model). -/
def pyUpper (s : List Char) : List Char := s.map Char.toUpper

/-- Python `s.lower()` (ASCII model). -/
def pyLower (s : List Char) : List Char := s.map Char.toLower

/-- Python `s.replace(t, '')` for a one-character `t`: every occurrence of the
character is removed. -/
def removeAll (t : Char) (s : List Char) : List Char :=
  s.filter (fun c => c ≠ t)

/-- Split off the text before and after the first occurrence of the nonempty
separator `d :: ds` in `s`; `none` when the separator does not occur.  This is
the elementary step of Python's `str.split` (greedy leftmost match). -/
def splitFirst (d : Char) (ds : List Char) : List Char → Option (List Char × List Char)
  | [] => none
  | c :: rest =>
      if (d :: ds).isPrefixOf (c :: rest) then some ([], rest.drop ds.length)
      else (splitFirst d ds rest).map (fun p => (c :: p.1, p.2))

/-- `splitFirst` on a possibly-empty separator (Python never splits on the
empty string in this code base, so the empty case is unreachable). -/
def findSplit : List Char → List Char → Option (List Char × List Char)
  | [], _ => none
  | d :: ds, s => splitFirst d ds s

/-- Python `sep in s` (substring test). -/
def containsSub (sep s : List Char) : Bool := (findSplit sep s).isSome

/-- Python `s.split(sep)[0]`: the text before the first occurrence of `sep`
(the whole of `s` when `sep` does not occur). -/
def beforeFirst (sep s : List Char) : List Char :=
  match findSplit sep s with
  | none => s
  | some p => p.1

/-- Python `s.split(sep)[1]` when `sep` occurs at least once: the text between
the first occurrence and the following occurrence or the end; equals `s` when
`sep` does not occur (that case is always guarded in the source). -/
def afterFirstSeg (sep s : List Char) : List Char :=
  match findSplit sep s with
  | none => s
  | some p => beforeFirst sep p.2

/-- Fuel-driven iteration of `findSplit`: keeps the suffix after each
occurrence of `sep`.  Each step strictly shortens the suffix, so fuel
`s.length + 1` always reaches the no-occurrence case. -/
def afterLastFuel (sep : List Char) : Nat → List Char → List Char
  | 0, s => s
  | fuel + 1, s =>
      match findSplit sep s with
      | none => s
      | some p => afterLastFuel sep fuel p.2

/-- Python `s.split(sep)[-1]`: the text after the last occurrence of `sep`
under the greedy leftmost splitting (the whole of `s` when `sep` does not
occur). -/
def afterLast (sep s : List Char) : List Char :=
  afterLastFuel sep (s.length + 1) s

/-- The sentinel string `"NONE"`. -/
def noneStr : List Char := "NONE".toList

/-- The start delimiter `"<START>"`. -/
def startTok : List Char := "<START>".toList

/-- The end delimiter `"<END>"`. -/
def endTok : List Char := "<END>".toList

/-- The de-hyphenation and de-spacing step of `format_part_number`
(gemini_model.py:151): `number.replace('-', '').replace(' ', '')`. -/
def cleanNum (s : List Char) : List Char := removeAll ' ' (removeAll '-' s)

/-- The regrouped string built by `format_part_number` before the final
strip (gemini_model.py:158-162): `f"{n[:3]} {n[3:6]} {n[6:9]}"` plus
`f" {n[9:]}"` when more than 9 characters remain. -/
def grouped (n : List Char) : List Char :=
  n.take 3 ++ ' ' :: (n.drop 3).take 3 ++ ' ' :: (n.drop 6).take 3 ++
    (if 9 < n.length then ' ' :: n.drop 9 else [])

/-- Embeds `GeminiInference.format_part_number` (gemini_model.py:149-164):
remove hyphens and spaces, return as-is when shorter than 9 characters,
otherwise regroup as 3/3/3 plus one trailing group, and strip. -/
def format_part_number (number : List Char) : List Char :=
  let n := cleanNum number
  if n.length < 9 then n else pyStrip (grouped n)

/-- Embeds `GeminiInference.extract_number` (gemini_model.py:166-170):
`response.split('<START>')[-1].split('<END>')[0].strip()`, canonicalized
unless it spells `NONE` case-insensitively. -/
def extract_number (response : List Char) : List Char :=
  let number := pyStrip (beforeFirst endTok (afterLast startTok response))
  if pyUpper number ≠ noneStr then format_part_number number else number

/-- The tag `"<VALID>"` looked up in validator responses. -/
def validTag : List Char := "<VALID>".toList

/-- The tag `"<CORRECTED>"` looked up in double-check responses. -/
def correctedTag : List Char := "<CORRECTED>".toList

/-- The tag `"<UNCHANGED>"` looked up in double-check responses. -/
def unchangedTag : List Char := "<UNCHANGED>".toList

/-- The corrected candidate read out of a double-check response
(gemini_model.py:308): `result.split("<CORRECTED>")[1].split("\n")[0].strip()`. -/
def correctedOf (dres : List Char) : List Char :=
  pyStrip (beforeFirst ('\n' :: []) (afterFirstSeg correctedTag dres))

/-- The mutable state of one `GeminiInference.__call__` session, together with
call counters for the three kinds of service calls.  `incorrect` embeds
`self.incorrect_predictions`; the counters index into the response streams of
`SessionEnv` and record how many calls of each kind have been issued. -/
structure SessionState where
  incorrect : List (List Char)
  genCalls : Nat
  valCalls : Nat
  dcCalls : Nat
deriving DecidableEq, Repr

/-- Response streams of the external inference service, indexed by call
count: `gen t` is the text returned by the `t`-th `get_response` call,
`val t` by the `t`-th `validate_number` call, `dc t` by the `t`-th
`double_check_confused_digits` call.  The session logic is deterministic given
these streams, so every concrete run of the Python code (in which every
service call returns text rather than raising) is one such environment. -/
structure SessionEnv where
  gen : Nat → List Char
  val : Nat → List Char
  dc : Nat → List Char

/-- One iteration of the `for attempt in range(max_attempts)` body of
`GeminiInference.__call__` (gemini_model.py:297-327).  Returns the state after
the iteration and `some result` when the body executes a `return` (the
accepted candidate, with `incorrect_predictions` already reset), or `none`
when the loop falls through to the next attempt.  The re-prompting code
(lines 329-364) only rewrites `self.prompt`, which the environment abstracts
over, so it contributes no state here. -/
def sessionRound (env : SessionEnv) (st : SessionState) : SessionState × Option (List Char) :=
  let answer := env.gen st.genCalls
  let st1 : SessionState := { st with genCalls := st.genCalls + 1 }
  let extracted := extract_number answer
  if pyUpper extracted ≠ noneStr then
    let vres := env.val st1.valCalls
    let st2 : SessionState := { st1 with valCalls := st1.valCalls + 1 }
    if containsSub validTag vres then
      let dres := env.dc st2.dcCalls
      let st3 : SessionState := { st2 with dcCalls := st2.dcCalls + 1 }
      if containsSub correctedTag dres then
        let corrected := correctedOf dres
        let fres := env.val st3.valCalls
        let st4 : SessionState := { st3 with valCalls := st3.valCalls + 1 }
        if containsSub validTag fres then
          ({ st4 with incorrect := [] }, some corrected)
        else
          ({ st4 with incorrect := st4.incorrect ++ [corrected] }, none)
      else if containsSub unchangedTag dres then
        ({ st3 with incorrect := [] }, some extracted)
      else
        (st3, none)
    else
      ({ st2 with incorrect := st2.incorrect ++ [extracted] }, none)
  else
    (st1, none)

/-- The bounded round loop of `GeminiInference.__call__`
(gemini_model.py:294-368), by recursion on the remaining attempts: at fuel 0
the loop has ended, `incorrect_predictions` is reset and the sentinel
`"NONE"` is returned (lines 366-368). -/
def sessionLoop (env : SessionEnv) : Nat → SessionState → SessionState × List Char
  | 0, st => ({ st with incorrect := [] }, noneStr)
  | n + 1, st =>
      match sessionRound env st with
      | (st1, some r) => (st1, r)
      | (st1, none) => sessionLoop env n st1

/-- A whole session: `max_attempts = 3` rounds starting from empty rejection
memory and fresh call counters. -/
def session (env : SessionEnv) : SessionState × List Char :=
  sessionLoop env 3 ⟨[], 0, 0, 0⟩

/-- Outcome of one `self.model.generate_content` attempt inside
`get_response`: either text, or an exception carrying its message. -/
inductive GenOutcome where
  | ok (text : List Char)
  | err (msg : List Char)
deriving DecidableEq, Repr

/-- Environment of `get_response`: the outcome of each generation attempt and
the `random.uniform(0, 1)` jitter added to each backoff delay (modelled as an
exact rational).  The `sleep(random.uniform(1, 3))` pause before each attempt
has no effect on control flow or state and is not recorded. -/
structure RespEnv where
  gen : Nat → GenOutcome
  backJitter : Nat → ℚ

/-- Result of `get_response`: a returned text, a re-raised non-quota
exception, or the final `Exception("Max retries reached...")`. -/
inductive RespResult where
  | success (text : List Char)
  | raised (msg : List Char)
  | exhausted
deriving DecidableEq, Repr

/-- Python `"quota" in str(e).lower()` (gemini_model.py:140). -/
def quotaMsg (msg : List Char) : Bool := containsSub ("quota".toList) (pyLower msg)

/-- The attempt produced a quota/rate-limit exception. -/
def isQuotaErr : GenOutcome → Bool
  | .ok _ => false
  | .err m => quotaMsg m

/-- Embeds the retry loop of `GeminiInference.get_response`
(gemini_model.py:129-147): `remaining` attempts are left, `t` is the current
attempt index, `sleeps` accumulates every backoff delay actually slept
(`base_delay * 2 ** attempt + random.uniform(0, 1)` with `base_delay = 5`).
On a non-quota error the exception re-raises immediately; after the loop the
max-retries exception is raised. -/
def get_response_loop (env : RespEnv) : Nat → Nat → List ℚ → RespResult × List ℚ
  | 0, _, sleeps => (.exhausted, sleeps)
  | remaining + 1, t, sleeps =>
      match env.gen t with
      | .ok text => (.success text, sleeps)
      | .err msg =>
          if quotaMsg msg then
            get_response_loop env remaining (t + 1) (sleeps ++ [5 * 2 ^ t + env.backJitter t])
          else
            (.raised msg, sleeps)

/-- `GeminiInference.get_response` with `max_retries = 20`, returning the
result together with the trace of backoff delays slept. -/
def get_response (env : RespEnv) : RespResult × List ℚ :=
  get_response_loop env 20 0 []

/-- A run in which every extraction yields the same candidate and the
validator always rejects it. -/
def rejectEnv : SessionEnv where
  gen := fun _ => "blah <START> 5K0937087AC <END> blah".toList
  val := fun _ => "<INVALID> wrong part for this vehicle".toList
  dc := fun _ => []

/-- A run in which the first validation confirms, the double check proposes a
correction, and the re-validation of the corrected candidate rejects it. -/
def correctEnv : SessionEnv where
  gen := fun _ => "blah <START> 5K0937087AC <END> blah".toList
  val := fun t => if t = 0 then "<VALID> looks right".toList else "<INVALID> nope".toList
  dc := fun _ => "<CORRECTED> 5K0937088AC\nfixed final digit".toList

/-- A run in which validation confirms but the double-check response carries
neither verdict tag. -/
def silentEnv : SessionEnv where
  gen := fun _ => "blah <START> 5K0937087AC <END> blah".toList
  val := fun _ => "<VALID> looks right".toList
  dc := fun _ => "no verdict tags in this text".toList

/-- A retry run in which every attempt fails with a quota error (zero
jitter). -/
def quotaEnv : RespEnv where
  gen := fun _ => .err ("429 You exceeded your quota".toList)
  backJitter := fun _ => 0

/-- A retry run whose first attempt fails with an error unrelated to
quota. -/
def fatalEnv : RespEnv where
  gen := fun _ => .err ("connection reset by peer".toList)
  backJitter := fun _ => 0

theorem sessionRound_genCalls (env : SessionEnv) (st : SessionState) :
    (sessionRound env st).1.genCalls = st.genCalls + 1 := by
  unfold sessionRound
  dsimp only
  split_ifs <;> rfl

theorem sessionRound_some_incorrect {env : SessionEnv} {st st1 : SessionState}
    {r : List Char} (h : sessionRound env st = (st1, some r)) :
    st1.incorrect = [] := by
  unfold sessionRound at h
  dsimp only at h
  split_ifs at h <;> rw [Prod.mk.injEq] at h <;>
    first
      | exact Option.noConfusion h.2
      | rw [← h.1]

theorem sessionRound_rejected (env : SessionEnv) (st : SessionState)
    (h1 : pyUpper (extract_number (env.gen st.genCalls)) ≠ noneStr)
    (h2 : containsSub validTag (env.val st.valCalls) = false) :
    sessionRound env st =
      ({ st with
         incorrect := st.incorrect ++ [extract_number (env.gen st.genCalls)],
         genCalls := st.genCalls + 1, valCalls := st.valCalls + 1 }, none) := by
  unfold sessionRound
  dsimp only
  rw [if_pos h1, if_neg (by simp [h2])]

/-- Claim C8: the Rejection Memory (`incorrect_predictions`) is empty after
every termination of the session loop, whether the loop accepted a candidate
or exhausted its rounds, so the next photograph's session starts with an
empty memory. -/
theorem rejection_memory_cleared (env : SessionEnv) (n : Nat) (st : SessionState) :
    (sessionLoop env n st).1.incorrect = [] := by
  induction n generalizing st with
  | zero => rfl
  | succ k ih =>
      rcases hr : sessionRound env st with ⟨st1, r⟩
      rw [sessionLoop, hr]
      cases r with
      | none => exact ih st1
      | some v => exact sessionRound_some_incorrect hr

/-- Claim C9: when every round extracts a non-`NONE` candidate and every
validator verdict rejects it, the session issues exactly `max_attempts = 3`
inference calls and terminates exhausted with sentinel `"NONE"` and cleared
memory; moreover no session ever issues more than 3 inference calls. -/
theorem session_round_cap :
    (∀ env : SessionEnv,
        (∀ t, t < 3 → pyUpper (extract_number (env.gen t)) ≠ noneStr) →
        (∀ t, t < 3 → containsSub validTag (env.val t) = false) →
        session env = (⟨[], 3, 3, 0⟩, noneStr)) ∧
    (∀ env : SessionEnv, (session env).1.genCalls ≤ 3) := by
  constructor
  · intro env hg hv
    have r0 := sessionRound_rejected env ⟨[], 0, 0, 0⟩
      (hg 0 (by omega)) (hv 0 (by omega))
    have r1 := sessionRound_rejected env ⟨[extract_number (env.gen 0)], 1, 1, 0⟩
      (hg 1 (by omega)) (hv 1 (by omega))
    have r2 := sessionRound_rejected env
      ⟨[extract_number (env.gen 0), extract_number (env.gen 1)], 2, 2, 0⟩
      (hg 2 (by omega)) (hv 2 (by omega))
    simp [session, sessionLoop, r0, r1, r2]
  · intro env
    have mono : ∀ n st, (sessionLoop env n st).1.genCalls ≤ st.genCalls + n := by
      intro n
      induction n with
      | zero => intro st; simp [sessionLoop]
      | succ k ih =>
          intro st
          rcases hr : sessionRound env st with ⟨st1, r⟩
          have hg : st1.genCalls = st.genCalls + 1 := by
            have h2 := sessionRound_genCalls env st
            rw [hr] at h2
            exact h2
          rw [sessionLoop, hr]
          cases r with
          | none =>
              have h3 := ih st1
              simp only []
              omega
          | some v => simp only []; omega
    have h4 := mono 3 ⟨[], 0, 0, 0⟩
    simpa [session] using h4

/-- Claim C2 (amended): every round whose extraction is a non-`NONE`
candidate issues a Validation Oracle call, even when that candidate is
already recorded in the Rejection Memory — the code has no per-candidate
retry cap and never skips validation. -/
theorem validation_despite_memory (env : SessionEnv) (st : SessionState)
    (h1 : pyUpper (extract_number (env.gen st.genCalls)) ≠ noneStr)
    (_hmem : extract_number (env.gen st.genCalls) ∈ st.incorrect) :
    st.valCalls + 1 ≤ (sessionRound env st).1.valCalls := by
  unfold sessionRound
  dsimp only
  rw [if_pos h1]
  split_ifs <;> dsimp only <;> omega

/-- Claim C2 (counterexample): in a run where every round extracts the same
candidate and the validator always rejects it, the candidate sits in the
Rejection Memory with count 1 and then 2, yet the second and third rounds
still submit it to the Validation Oracle (the validator call counter keeps
increasing). -/
theorem known_bad_candidate_revalidated :
    let x := "5K0 937 087 AC".toList
    let st1 := (sessionRound rejectEnv ⟨[], 0, 0, 0⟩).1
    let st2 := (sessionRound rejectEnv st1).1
    st1.incorrect = [x] ∧ st1.valCalls = 1 ∧ st2.incorrect = [x, x] ∧ st2.valCalls = 2 ∧
      extract_number (rejectEnv.gen st2.genCalls) = x ∧
      (sessionRound rejectEnv st2).1.valCalls = st2.valCalls + 1 := by
  decide

/-- Claim C7: after a `<VALID>` verdict, when the double check returns
`<CORRECTED>`, the corrected candidate is re-submitted to the Validation
Oracle (a second validator call is consumed) before the session can return
it; if that re-validation confirms, the corrected candidate is returned with
memory cleared, and if it rejects, the corrected candidate is appended to the
Rejection Memory and the loop continues instead of raising. -/
theorem corrected_candidate_revalidated (env : SessionEnv) (st : SessionState)
    (h1 : pyUpper (extract_number (env.gen st.genCalls)) ≠ noneStr)
    (h2 : containsSub validTag (env.val st.valCalls) = true)
    (h3 : containsSub correctedTag (env.dc st.dcCalls) = true) :
    (sessionRound env st).1.valCalls = st.valCalls + 2 ∧
    (containsSub validTag (env.val (st.valCalls + 1)) = true →
      sessionRound env st =
        ({ incorrect := [], genCalls := st.genCalls + 1, valCalls := st.valCalls + 2,
           dcCalls := st.dcCalls + 1 }, some (correctedOf (env.dc st.dcCalls)))) ∧
    (containsSub validTag (env.val (st.valCalls + 1)) = false →
      sessionRound env st =
        ({ incorrect := st.incorrect ++ [correctedOf (env.dc st.dcCalls)],
           genCalls := st.genCalls + 1, valCalls := st.valCalls + 2,
           dcCalls := st.dcCalls + 1 }, none)) := by
  unfold sessionRound
  dsimp only
  rw [if_pos h1, if_pos h2, if_pos h3]
  refine ⟨?_, fun h4 => ?_, fun h4 => ?_⟩
  · split_ifs <;> rfl
  · rw [if_pos h4]
  · rw [if_neg (by simp [h4])]

/-- Claim C10: after a `<VALID>` verdict, a double-check response carrying
neither `<CORRECTED>` nor `<UNCHANGED>` neither accepts the candidate nor
touches the Rejection Memory: the round's calls are consumed and the loop
falls through to the next attempt. -/
theorem double_check_no_tag_silent (env : SessionEnv) (st : SessionState)
    (h1 : pyUpper (extract_number (env.gen st.genCalls)) ≠ noneStr)
    (h2 : containsSub validTag (env.val st.valCalls) = true)
    (h3 : containsSub correctedTag (env.dc st.dcCalls) = false)
    (h4 : containsSub unchangedTag (env.dc st.dcCalls) = false) :
    sessionRound env st =
      ({ st with
         genCalls := st.genCalls + 1, valCalls := st.valCalls + 1,
         dcCalls := st.dcCalls + 1 }, none) := by
  unfold sessionRound
  dsimp only
  rw [if_pos h1, if_pos h2, if_neg (by simp [h3]), if_neg (by simp [h4])]

/-- Witness for C2's theorem: with the rejected candidate already in memory
and counters at 1, the next round still issues a validator call. -/
theorem validation_despite_memory_witness :
    1 + 1 ≤ (sessionRound rejectEnv ⟨[("5K0 937 087 AC".toList)], 1, 1, 0⟩).1.valCalls :=
  validation_despite_memory rejectEnv ⟨[("5K0 937 087 AC".toList)], 1, 1, 0⟩
    (by decide) (by decide)

/-- Witness for C9's theorem: the all-rejected run issues exactly three
inference calls and ends exhausted. -/
theorem session_round_cap_witness :
    session rejectEnv = (⟨[], 3, 3, 0⟩, noneStr) :=
  session_round_cap.1 rejectEnv (by decide) (by decide)

/-- Witness for C7's theorem: a corrected candidate that fails re-validation
is appended to memory and the round continues. -/
theorem corrected_candidate_revalidated_witness :
    sessionRound correctEnv ⟨[], 0, 0, 0⟩ =
      (⟨[("5K0937088AC".toList)], 1, 2, 1⟩, none) :=
  (corrected_candidate_revalidated correctEnv ⟨[], 0, 0, 0⟩
    (by decide) (by decide) (by decide)).2.2 (by decide)

/-- Witness for C10's theorem: a tagless double-check response consumes the
round without touching memory. -/
theorem double_check_no_tag_silent_witness :
    sessionRound silentEnv ⟨[], 0, 0, 0⟩ = (⟨[], 1, 1, 1⟩, none) :=
  double_check_no_tag_silent silentEnv ⟨[], 0, 0, 0⟩
    (by decide) (by decide) (by decide) (by decide)

theorem quotaEnv_all_quota (u : Nat) : isQuotaErr (quotaEnv.gen u) = true := by
  show isQuotaErr (GenOutcome.err ("429 You exceeded your quota".toList)) = true
  decide

theorem delays_range_shift (env : RespEnv) (t k : Nat) :
    (5 * 2 ^ t + env.backJitter t) ::
        (List.range k).map (fun i => 5 * 2 ^ (t + 1 + i) + env.backJitter (t + 1 + i)) =
      (List.range (k + 1)).map (fun i => 5 * 2 ^ (t + i) + env.backJitter (t + i)) := by
  rw [List.range_succ_eq_map, List.map_cons, List.map_map]
  congr 1
  apply List.map_congr_left
  intro i _
  simp only [Function.comp_apply]
  rw [show t + 1 + i = t + (i + 1) by omega]

theorem get_response_loop_all_quota (env : RespEnv) :
    ∀ (r t : Nat) (sleeps : List ℚ),
      (∀ u, t ≤ u → u < t + r → isQuotaErr (env.gen u) = true) →
      get_response_loop env r t sleeps =
        (.exhausted,
          sleeps ++ (List.range r).map (fun i => 5 * 2 ^ (t + i) + env.backJitter (t + i))) := by
  intro r
  induction r with
  | zero =>
      intro t sleeps _
      simp [get_response_loop]
  | succ k ih =>
      intro t sleeps h
      have hqt : isQuotaErr (env.gen t) = true := h t le_rfl (by omega)
      rw [get_response_loop]
      cases hgt : env.gen t with
      | ok text => rw [hgt] at hqt; simp [isQuotaErr] at hqt
      | err m0 =>
          have hm0 : quotaMsg m0 = true := by rw [hgt] at hqt; simpa [isQuotaErr] using hqt
          dsimp only
          rw [if_pos hm0]
          rw [ih (t + 1) (sleeps ++ [5 * 2 ^ t + env.backJitter t])
            (fun u hu1 hu2 => h u (by omega) (by omega))]
          rw [List.append_assoc, List.singleton_append, delays_range_shift]

theorem get_response_loop_raises (env : RespEnv) :
    ∀ (k r t : Nat) (sleeps : List ℚ) (m : List Char), k < r →
      (∀ s, s < k → isQuotaErr (env.gen (t + s)) = true) →
      env.gen (t + k) = .err m → quotaMsg m = false →
      get_response_loop env r t sleeps =
        (.raised m,
          sleeps ++ (List.range k).map (fun i => 5 * 2 ^ (t + i) + env.backJitter (t + i))) := by
  intro k
  induction k with
  | zero =>
      intro r t sleeps m hr hq hg hm
      obtain ⟨r1, rfl⟩ : ∃ r1, r = r1 + 1 := ⟨r - 1, by omega⟩
      have hg1 : env.gen t = .err m := hg
      rw [get_response_loop, hg1]
      dsimp only
      rw [if_neg (by simp [hm])]
      simp
  | succ k1 ih =>
      intro r t sleeps m hr hq hg hm
      obtain ⟨r1, rfl⟩ : ∃ r1, r = r1 + 1 := ⟨r - 1, by omega⟩
      have hqt : isQuotaErr (env.gen t) = true := by simpa using hq 0 (by omega)
      rw [get_response_loop]
      cases hgt : env.gen t with
      | ok text => rw [hgt] at hqt; simp [isQuotaErr] at hqt
      | err m0 =>
          have hm0 : quotaMsg m0 = true := by rw [hgt] at hqt; simpa [isQuotaErr] using hqt
          dsimp only
          rw [if_pos hm0]
          rw [ih r1 (t + 1) (sleeps ++ [5 * 2 ^ t + env.backJitter t]) m (by omega)
            (fun s hs => by rw [show t + 1 + s = t + (s + 1) by omega]; exact hq (s + 1) (by omega))
            (by rw [show t + 1 + k1 = t + (k1 + 1) by omega]; exact hg) hm]
          rw [List.append_assoc, List.singleton_append, delays_range_shift]

theorem halts_cond_shift (env : RespEnv) (t n : Nat) {m0 : List Char}
    (hg : env.gen t = .err m0) (hm : quotaMsg m0 = true) :
    ((∃ k, k < n ∧ (∀ s, s < k → isQuotaErr (env.gen (t + 1 + s)) = true) ∧
        ∃ m, env.gen (t + 1 + k) = .err m ∧ quotaMsg m = false) ∨
      (∀ k, k < n → isQuotaErr (env.gen (t + 1 + k)) = true)) ↔
    ((∃ k, k < n + 1 ∧ (∀ s, s < k → isQuotaErr (env.gen (t + s)) = true) ∧
        ∃ m, env.gen (t + k) = .err m ∧ quotaMsg m = false) ∨
      (∀ k, k < n + 1 → isQuotaErr (env.gen (t + k)) = true)) := by
  have hqt : isQuotaErr (env.gen t) = true := by rw [hg]; simpa [isQuotaErr] using hm
  constructor
  · rintro (⟨k, hk, hq, m, hgm, hmm⟩ | hall)
    · left
      refine ⟨k + 1, by omega, ?_, m,
        by rw [show t + (k + 1) = t + 1 + k by omega]; exact hgm, hmm⟩
      intro s hs
      cases s with
      | zero => simpa using hqt
      | succ s1 =>
          rw [show t + (s1 + 1) = t + 1 + s1 by omega]
          exact hq s1 (by omega)
    · right
      intro k hk
      cases k with
      | zero => simpa using hqt
      | succ k1 =>
          rw [show t + (k1 + 1) = t + 1 + k1 by omega]
          exact hall k1 (by omega)
  · rintro (⟨k, hk, hq, m, hgm, hmm⟩ | hall)
    · cases k with
      | zero =>
          have hgm1 : GenOutcome.err m0 = GenOutcome.err m := by
            rw [← hg]; exact hgm.symm ▸ congrArg env.gen (by omega)
          injection hgm1 with hinj
          rw [← hinj] at hmm
          rw [hmm] at hm
          exact absurd hm (by simp)
      | succ k1 =>
          left
          refine ⟨k1, by omega, ?_, m,
            by rw [show t + 1 + k1 = t + (k1 + 1) by omega]; exact hgm, hmm⟩
          intro s hs
          rw [show t + 1 + s = t + (s + 1) by omega]
          exact hq (s + 1) (by omega)
    · right
      intro k hk
      rw [show t + 1 + k = t + (k + 1) by omega]
      exact hall (k + 1) (by omega)

theorem get_response_loop_halts_iff (env : RespEnv) :
    ∀ (r t : Nat) (sleeps : List ℚ),
      ((∃ m, (get_response_loop env r t sleeps).1 = .raised m) ∨
        (get_response_loop env r t sleeps).1 = .exhausted) ↔
      ((∃ k, k < r ∧ (∀ s, s < k → isQuotaErr (env.gen (t + s)) = true) ∧
          ∃ m, env.gen (t + k) = .err m ∧ quotaMsg m = false) ∨
        (∀ k, k < r → isQuotaErr (env.gen (t + k)) = true)) := by
  intro r
  induction r with
  | zero =>
      intro t sleeps
      simp [get_response_loop]
  | succ n ih =>
      intro t sleeps
      rw [get_response_loop]
      cases hgt : env.gen t with
      | ok text =>
          dsimp only
          constructor
          · rintro (⟨m, hm⟩ | hm) <;> simp at hm
          · rintro (⟨k, hk, hq, m, hgm, hmm⟩ | hall)
            · cases k with
              | zero =>
                  have : GenOutcome.ok text = GenOutcome.err m := by
                    rw [← hgt]; exact hgm.symm ▸ congrArg env.gen (by omega)
                  exact GenOutcome.noConfusion this
              | succ k1 =>
                  have h0 := hq 0 (by omega)
                  rw [show t + 0 = t by omega, hgt] at h0
                  simp [isQuotaErr] at h0
            · have h0 := hall 0 (by omega)
              rw [show t + 0 = t by omega, hgt] at h0
              simp [isQuotaErr] at h0
      | err m0 =>
          by_cases hm0 : quotaMsg m0 = true
          · dsimp only
            rw [if_pos hm0]
            exact (ih (t + 1) (sleeps ++ [5 * 2 ^ t + env.backJitter t])).trans
              (halts_cond_shift env t n hgt hm0)
          · dsimp only
            rw [if_neg hm0]
            constructor
            · intro _
              left
              exact ⟨0, by omega, by omega, m0,
                by rw [show t + 0 = t by omega]; exact hgt,
                by simpa using hm0⟩
            · intro _
              left
              exact ⟨m0, rfl⟩

/-- Claim C3 (counterexample): with every attempt failing on a quota error
and zero jitter, the seventh backoff delay `5 * 2 ^ 6 = 320` exceeds the
claimed 300-second ceiling yet is slept in full (it appears in the sleep
trace) and the loop runs all 20 attempts on the sole credential — no
rotation happens. -/
theorem ceiling_exceeded_still_sleeps :
    quotaMsg ("429 You exceeded your quota".toList) = true ∧
    (get_response quotaEnv).1 = RespResult.exhausted ∧
    (get_response quotaEnv).2.get? 6 = some 320 ∧ (300 : ℚ) < 320 := by
  have h := get_response_loop_all_quota quotaEnv 20 0 [] (fun u _ _ => quotaEnv_all_quota u)
  refine ⟨by decide, by decide, ?_, by norm_num⟩
  rw [get_response, h]
  simp only [List.nil_append, List.get?_eq_getElem?, List.getElem?_map, List.getElem?_range]
  norm_num [quotaEnv]

/-- Claim C3 (amended): the retry loop of `get_response` has no backoff
ceiling and no credential rotation: when every attempt fails on a quota
error it sleeps every full delay `5 * 2 ^ attempt + jitter` for all 20
attempts — including delays beyond 300 seconds — and then raises the
max-retries exception. -/
theorem quota_backoff_full_delays (env : RespEnv)
    (hq : ∀ t, t < 20 → isQuotaErr (env.gen t) = true)
    (hj : 0 ≤ env.backJitter 6) :
    (get_response env).1 = .exhausted ∧
    (get_response env).2 = (List.range 20).map (fun t => 5 * 2 ^ t + env.backJitter t) ∧
    ∃ d ∈ (get_response env).2, (300 : ℚ) < d := by
  have h := get_response_loop_all_quota env 20 0 [] (fun u _ hu => hq u (by omega))
  have h2 : (get_response env).2 =
      (List.range 20).map (fun t => 5 * 2 ^ t + env.backJitter t) := by
    rw [get_response, h]
    simp
  refine ⟨by rw [get_response, h], h2, ?_⟩
  rw [h2]
  refine ⟨5 * 2 ^ 6 + env.backJitter 6, List.mem_map.mpr ⟨6, by simp, rfl⟩, ?_⟩
  have h320 : (5 : ℚ) * 2 ^ 6 = 320 := by norm_num
  linarith

/-- Witness for C3's theorem: the all-quota zero-jitter run exhausts all
retries. -/
theorem quota_backoff_full_delays_witness :
    (get_response quotaEnv).1 = RespResult.exhausted :=
  (quota_backoff_full_delays quotaEnv (fun t _ => quotaEnv_all_quota t) (by norm_num [quotaEnv])).1

/-- Claim C6: `get_response` fails if and only if either some attempt hits a
non-quota error after only quota errors — in which case that error
propagates immediately, with exactly the earlier attempts' backoffs slept —
or all 20 attempts fail on quota errors, in which case the max-retries
exception is raised; quota errors below the budget never surface. -/
theorem get_response_raises_iff (env : RespEnv) :
    (((∃ m, (get_response env).1 = .raised m) ∨ (get_response env).1 = .exhausted) ↔
      ((∃ t, t < 20 ∧ (∀ s, s < t → isQuotaErr (env.gen s) = true) ∧
          ∃ m, env.gen t = .err m ∧ quotaMsg m = false) ∨
        (∀ t, t < 20 → isQuotaErr (env.gen t) = true))) ∧
    (∀ t m, t < 20 → (∀ s, s < t → isQuotaErr (env.gen s) = true) →
      env.gen t = .err m → quotaMsg m = false →
      get_response env =
        (.raised m, (List.range t).map (fun i => 5 * 2 ^ i + env.backJitter i))) ∧
    ((∀ t, t < 20 → isQuotaErr (env.gen t) = true) →
      (get_response env).1 = .exhausted) := by
  refine ⟨?_, ?_, ?_⟩
  · have h := get_response_loop_halts_iff env 20 0 []
    simp only [Nat.zero_add] at h
    exact h
  · intro t m ht hq hg hm
    have h := get_response_loop_raises env t 20 0 [] m ht
      (by simpa only [Nat.zero_add] using hq)
      (by simpa only [Nat.zero_add] using hg) hm
    rw [get_response, h]
    simp
  · intro hq
    have h := get_response_loop_all_quota env 20 0 [] (fun u _ hu => hq u (by omega))
    rw [get_response, h]

/-- Witness for C6's theorem: a first-attempt non-quota error propagates
immediately with no backoff slept. -/
theorem get_response_raises_iff_witness :
    get_response fatalEnv =
      (RespResult.raised ("connection reset by peer".toList),
        (List.range 0).map (fun i => 5 * 2 ^ i + fatalEnv.backJitter i)) :=
  (get_response_raises_iff fatalEnv).2.1 0 ("connection reset by peer".toList)
    (by omega) (fun s hs => absurd hs (by omega)) (by decide) (by decide)

theorem findSplit_none_of_not_contains {sep s : List Char}
    (h : containsSub sep s = false) : findSplit sep s = none := by
  cases hf : findSplit sep s with
  | none => rfl
  | some p =>
      unfold containsSub at h
      rw [hf] at h
      simp at h

theorem afterLast_of_none {sep s : List Char} (h : findSplit sep s = none) :
    afterLast sep s = s := by
  unfold afterLast afterLastFuel
  rw [h]

theorem beforeFirst_of_none {sep s : List Char} (h : findSplit sep s = none) :
    beforeFirst sep s = s := by
  rw [beforeFirst, h]

theorem mem_cleanNum {c : Char} {s : List Char} (h : c ∈ cleanNum s) :
    c ∈ s ∧ c ≠ '-' ∧ c ≠ ' ' := by
  rw [cleanNum, removeAll, removeAll] at h
  simp only [List.mem_filter, decide_eq_true_eq] at h
  exact ⟨h.1.1, h.1.2, h.2⟩

theorem removeAll_eq_self {t : Char} {s : List Char} (h : ∀ c ∈ s, c ≠ t) :
    removeAll t s = s := by
  rw [removeAll, List.filter_eq_self]
  intro a ha
  simpa using h a ha

theorem cleanNum_idem (s : List Char) : cleanNum (cleanNum s) = cleanNum s := by
  have h1 : removeAll '-' (cleanNum s) = cleanNum s :=
    removeAll_eq_self (fun c hc => (mem_cleanNum hc).2.1)
  rw [cleanNum, h1]
  exact removeAll_eq_self (fun c hc => (mem_cleanNum hc).2.2)

theorem cleanNum_no_ws {s : List Char} (h : ∀ c ∈ s, pyIsSpace c = true → c = ' ') :
    ∀ c ∈ cleanNum s, pyIsSpace c = false := by
  intro c hc
  obtain ⟨hcs, _, hcsp⟩ := mem_cleanNum hc
  cases hsp : pyIsSpace c with
  | false => rfl
  | true => exact absurd (h c hcs hsp) hcsp

theorem pyStrip_eq_self {s : List Char} (hne : s ≠ [])
    (hh : ∀ a, s.head? = some a → pyIsSpace a = false)
    (hl : ∀ a, s.getLast? = some a → pyIsSpace a = false) :
    pyStrip s = s := by
  obtain ⟨a, t, rfl⟩ := List.exists_cons_of_ne_nil hne
  have ha : pyIsSpace a = false := hh a rfl
  rw [pyStrip, List.dropWhile_cons, if_neg (by simp [ha])]
  cases hrev : (a :: t).reverse with
  | nil => exact absurd hrev (by simp)
  | cons b u =>
      have hb : pyIsSpace b = false := by
        apply hl
        rw [← List.head?_reverse, hrev]
        rfl
      rw [List.dropWhile_cons, if_neg (by simp [hb]), ← hrev, List.reverse_reverse]

theorem grouped_subset (n : List Char) : grouped n ⊆ ' ' :: n := by
  intro c hc
  rw [grouped] at hc
  have hA : c ∈ n.take 3 → c ∈ n := fun h => List.take_subset 3 n h
  have hB : c ∈ (n.drop 3).take 3 → c ∈ n :=
    fun h => List.drop_subset 3 n (List.take_subset _ _ h)
  have hC : c ∈ (n.drop 6).take 3 → c ∈ n :=
    fun h => List.drop_subset 6 n (List.take_subset _ _ h)
  have hD : c ∈ n.drop 9 → c ∈ n := fun h => List.drop_subset 9 n h
  rw [List.mem_cons]
  split_ifs at hc <;> simp only [List.mem_append, List.mem_cons, List.not_mem_nil] at hc <;>
    tauto

theorem grouped_head {a : Char} {t : List Char} :
    (grouped (a :: t)).head? = some a := rfl

theorem grouped_getLast {n : List Char} (h9 : 9 ≤ n.length) :
    ∃ b, (grouped n).getLast? = some b ∧ b ∈ n := by
  rw [grouped]
  by_cases hgt : 9 < n.length
  · rw [if_pos hgt]
    have hne : n.drop 9 ≠ [] := by
      intro hnil
      have hlen := congrArg List.length hnil
      rw [List.length_drop] at hlen
      simp at hlen
      omega
    obtain ⟨d, u, hdu⟩ := List.exists_cons_of_ne_nil hne
    rw [hdu]
    rw [List.getLast?_append_cons, List.getLast?_cons_cons]
    refine ⟨(d :: u).getLast (by simp), List.getLast?_eq_getLast_of_ne_nil (by simp), ?_⟩
    have hmem : (d :: u).getLast (by simp) ∈ n.drop 9 := by
      rw [hdu]
      exact List.getLast_mem (by simp)
    exact List.drop_subset 9 n hmem
  · rw [if_neg hgt, List.append_nil]
    have hne : (n.drop 6).take 3 ≠ [] := by
      intro hnil
      have hlen := congrArg List.length hnil
      rw [List.length_take, List.length_drop, List.length_nil] at hlen
      rw [Nat.min_def] at hlen
      split_ifs at hlen
      all_goals omega
    obtain ⟨d, u, hdu⟩ := List.exists_cons_of_ne_nil hne
    rw [hdu]
    rw [List.getLast?_append_cons, List.getLast?_cons_cons]
    refine ⟨(d :: u).getLast (by simp), List.getLast?_eq_getLast_of_ne_nil (by simp), ?_⟩
    have hmem : (d :: u).getLast (by simp) ∈ (n.drop 6).take 3 := by
      rw [hdu]
      exact List.getLast_mem (by simp)
    exact List.drop_subset 6 n (List.take_subset 3 _ hmem)

theorem grouped_strip {n : List Char} (h9 : 9 ≤ n.length)
    (hw : ∀ c ∈ n, pyIsSpace c = false) : pyStrip (grouped n) = grouped n := by
  have hne : n ≠ [] := by
    intro h
    rw [h] at h9
    simp at h9
  obtain ⟨a, t, rfl⟩ := List.exists_cons_of_ne_nil hne
  apply pyStrip_eq_self
  · rw [grouped]
    simp
  · intro b hb
    rw [grouped_head] at hb
    injection hb with hb
    rw [← hb]
    exact hw a (by simp)
  · intro b hb
    obtain ⟨b2, hb2, hbmem⟩ := grouped_getLast h9
    rw [hb2] at hb
    injection hb with hb
    rw [← hb]
    exact hw b2 hbmem

theorem take_reassemble (n : List Char) :
    ((n.take 3 ++ (n.drop 3).take 3) ++ (n.drop 6).take 3) ++ n.drop 9 = n := by
  have e2 : n.take 9 = n.take 3 ++ (n.drop 3).take 6 := List.take_add n 3 6
  have e3 : (n.drop 3).take 6 = (n.drop 3).take 3 ++ ((n.drop 3).drop 3).take 3 :=
    List.take_add (n.drop 3) 3 3
  have e4 : (n.drop 3).drop 3 = n.drop 6 := List.drop_drop 3 3 n
  calc ((n.take 3 ++ (n.drop 3).take 3) ++ (n.drop 6).take 3) ++ n.drop 9
      = (n.take 3 ++ ((n.drop 3).take 3 ++ (n.drop 6).take 3)) ++ n.drop 9 := by
        simp [List.append_assoc]
    _ = n.take 9 ++ n.drop 9 := by rw [e2, e3, e4]
    _ = n := List.take_append_drop 9 n

theorem cleanNum_grouped {n : List Char} (h9 : 9 ≤ n.length)
    (hh : ∀ c ∈ n, c ≠ '-') (hs : ∀ c ∈ n, c ≠ ' ') : cleanNum (grouped n) = n := by
  have h1 : removeAll '-' (grouped n) = grouped n := by
    apply removeAll_eq_self
    intro c hc
    rcases List.mem_cons.mp (grouped_subset n hc) with rfl | hc1
    · decide
    · exact hh c hc1
  have fA : List.filter (fun c => c ≠ ' ') (n.take 3) = n.take 3 :=
    List.filter_eq_self.mpr (fun a ha => by simpa using hs a (List.take_subset 3 n ha))
  have fB : List.filter (fun c => c ≠ ' ') ((n.drop 3).take 3) = (n.drop 3).take 3 :=
    List.filter_eq_self.mpr (fun a ha => by
      simpa using hs a ((List.take_subset 3 _).trans (List.drop_subset 3 n) ha))
  have fC : List.filter (fun c => c ≠ ' ') ((n.drop 6).take 3) = (n.drop 6).take 3 :=
    List.filter_eq_self.mpr (fun a ha => by
      simpa using hs a ((List.take_subset 3 _).trans (List.drop_subset 6 n) ha))
  have fD : List.filter (fun c => c ≠ ' ') (n.drop 9) = n.drop 9 :=
    List.filter_eq_self.mpr (fun a ha => by simpa using hs a (List.drop_subset 9 n ha))
  have hsp : ((fun c => c ≠ ' ') ' ') = false := by simp
  rw [cleanNum, h1, removeAll, grouped]
  by_cases hgt : 9 < n.length
  · rw [if_pos hgt]
    rw [List.filter_append, List.filter_append, List.filter_append,
      List.filter_cons_of_neg (by simp), List.filter_cons_of_neg (by simp),
      List.filter_cons_of_neg (by simp), fA, fB, fC, fD]
    exact take_reassemble n
  · rw [if_neg hgt]
    have hd9 : n.drop 9 = [] := by
      apply List.eq_nil_of_length_eq_zero
      rw [List.length_drop]
      omega
    rw [List.append_nil, List.filter_append, List.filter_append,
      List.filter_cons_of_neg (by simp), List.filter_cons_of_neg (by simp), fA, fB, fC]
    have hr := take_reassemble n
    rw [hd9, List.append_nil] at hr
    exact hr

theorem format_part_number_eq (x : List Char) :
    format_part_number x =
      if (cleanNum x).length < 9 then cleanNum x else pyStrip (grouped (cleanNum x)) := rfl

theorem format_grouped_of_clean {x : List Char} (h9 : 9 ≤ x.length)
    (hw : ∀ c ∈ x, pyIsSpace c = false) (hh : '-' ∉ x) :
    format_part_number x = grouped x := by
  have hcx : cleanNum x = x := by
    rw [cleanNum, removeAll_eq_self (t := '-') (fun c hc he => hh (he ▸ hc))]
    apply removeAll_eq_self
    intro c hc he
    have hsp : pyIsSpace c = true := by rw [he]; decide
    rw [hw c hc] at hsp
    exact Bool.false_ne_true hsp
  rw [format_part_number_eq, hcx, if_neg (by omega)]
  exact grouped_strip h9 hw

/-- Claim C1 (counterexample): a raw response without any delimiter does not
parse to the sentinel `NONE`: the whole prose is taken as the payload and
canonicalized. -/
theorem missing_delimiters_returns_prose :
    containsSub startTok ("no delimiters here".toList) = false ∧
    containsSub endTok ("no delimiters here".toList) = false ∧
    extract_number ("no delimiters here".toList) = ("nod eli mit ershere".toList) ∧
    ("nod eli mit ershere".toList) ≠ noneStr :=
  ⟨by decide, by decide, by decide, by decide⟩

/-- Claim C1 (amended): on raw text in which both delimiters are absent,
`extract_number` does not raise (it is a total function) but it does not
return `NONE` either: it treats the entire stripped text as the payload,
canonicalizing it unless it spells `NONE` case-insensitively. -/
theorem extract_number_missing_delimiters (s : List Char)
    (h1 : containsSub startTok s = false) (h2 : containsSub endTok s = false) :
    extract_number s =
      (if pyUpper (pyStrip s) ≠ noneStr then format_part_number (pyStrip s) else pyStrip s) := by
  have e1 := findSplit_none_of_not_contains h1
  have e2 := findSplit_none_of_not_contains h2
  unfold extract_number
  dsimp only
  rw [afterLast_of_none e1, beforeFirst_of_none e2]

/-- Witness for C1's theorem: a delimiter-free word is canonicalized, not
mapped to `NONE`. -/
theorem extract_number_missing_delimiters_witness :
    extract_number ("hello".toList) =
      (if pyUpper (pyStrip ("hello".toList)) ≠ noneStr
        then format_part_number (pyStrip ("hello".toList)) else pyStrip ("hello".toList)) :=
  extract_number_missing_delimiters ("hello".toList) (by decide) (by decide)

/-- Claim C4 (counterexample): canonicalization is not idempotent on every
non-`NONE` candidate: for `"-\t23456789AB"` the first pass yields
`"23 456 789 AB"` (the tab survives de-spacing and is then stripped), and a
second pass regroups it as `"234 567 89A B"`. -/
theorem format_not_idempotent :
    pyUpper ("-\t23456789AB".toList) ≠ noneStr ∧
    format_part_number (format_part_number ("-\t23456789AB".toList)) ≠
      format_part_number ("-\t23456789AB".toList) :=
  ⟨by decide, by decide⟩

/-- Claim C4 (amended): canonicalization is idempotent on every candidate
whose whitespace characters are all plain spaces — in particular on all
candidates made of visible characters, hyphens and spaces; only exotic
whitespace (tab, newline, ...) inside the payload can break idempotence. -/
theorem format_part_number_idem (x : List Char)
    (h : ∀ c ∈ x, pyIsSpace c = true → c = ' ') :
    format_part_number (format_part_number x) = format_part_number x := by
  have hws : ∀ c ∈ cleanNum x, pyIsSpace c = false := cleanNum_no_ws h
  by_cases h9 : (cleanNum x).length < 9
  · have e1 : format_part_number x = cleanNum x := by
      rw [format_part_number_eq, if_pos h9]
    rw [e1, format_part_number_eq, cleanNum_idem, if_pos h9]
  · push_neg at h9
    have hstrip := grouped_strip h9 hws
    have e1 : format_part_number x = grouped (cleanNum x) := by
      rw [format_part_number_eq, if_neg (by omega), hstrip]
    have hh : ∀ c ∈ cleanNum x, c ≠ '-' := fun c hc => (mem_cleanNum hc).2.1
    have hs : ∀ c ∈ cleanNum x, c ≠ ' ' := fun c hc => (mem_cleanNum hc).2.2
    have e2 : cleanNum (grouped (cleanNum x)) = cleanNum x := cleanNum_grouped h9 hh hs
    rw [e1, format_part_number_eq, e2, if_neg (by omega), hstrip]

/-- Witness for C4's theorem: a hyphenated part number canonicalizes to a
fixed point. -/
theorem format_part_number_idem_witness :
    format_part_number (format_part_number ("5K0-937-087-AC".toList)) =
      format_part_number ("5K0-937-087-AC".toList) :=
  format_part_number_idem ("5K0-937-087-AC".toList) (by decide)

/-- Claim C5 (counterexample): the 9-character de-hyphenated, de-spaced
payload containing a tab canonicalizes to `"23 456 789"` — a 10-character
string whose first group has only two characters — so the output is not
three space-separated 3-character groups (that shape forces length 11). -/
theorem nine_payload_group_failure :
    (("\t23456789".toList).length = 9 ∧ '-' ∉ ("\t23456789".toList) ∧
      ' ' ∉ ("\t23456789".toList) ∧
      format_part_number ("\t23456789".toList) = ("23 456 789".toList)) ∧
    ¬ ∃ g1 g2 g3 : List Char, g1.length = 3 ∧ g2.length = 3 ∧ g3.length = 3 ∧
        format_part_number ("\t23456789".toList) = g1 ++ ' ' :: g2 ++ ' ' :: g3 := by
  refine ⟨by decide, ?_⟩
  rintro ⟨g1, g2, g3, h1, h2, h3, heq⟩
  have hlen : (format_part_number ("\t23456789".toList)).length = 10 := by decide
  rw [heq] at hlen
  simp [List.length_append, List.length_cons, h1, h2, h3] at hlen

/-- Claim C5 (amended): for whitespace-free de-hyphenated, de-spaced
payloads, a 9-character payload canonicalizes to exactly three
space-separated 3-character groups, and a longer payload gains exactly one
additional trailing group holding the characters past index 9; the scenario
`"blah <START> 5K0937087AC <END> blah"` parses to `"5K0 937 087 AC"` as
claimed. -/
theorem format_group_boundaries :
    (∀ x : List Char, x.length = 9 → '-' ∉ x → (∀ c ∈ x, pyIsSpace c = false) →
      ∃ g1 g2 g3 : List Char, g1.length = 3 ∧ g2.length = 3 ∧ g3.length = 3 ∧
        g1 ++ g2 ++ g3 = x ∧
        format_part_number x = g1 ++ ' ' :: g2 ++ ' ' :: g3) ∧
    (∀ x : List Char, 9 < x.length → '-' ∉ x → (∀ c ∈ x, pyIsSpace c = false) →
      format_part_number x =
        x.take 3 ++ ' ' :: (x.drop 3).take 3 ++ ' ' :: (x.drop 6).take 3 ++ ' ' :: x.drop 9) ∧
    extract_number ("blah <START> 5K0937087AC <END> blah".toList) = ("5K0 937 087 AC".toList) := by
  refine ⟨?_, ?_, by decide⟩
  · intro x h9 hh hw
    refine ⟨x.take 3, (x.drop 3).take 3, (x.drop 6).take 3, ?_, ?_, ?_, ?_, ?_⟩
    · rw [List.length_take, h9]
      decide
    · rw [List.length_take, List.length_drop, h9]
      decide
    · rw [List.length_take, List.length_drop, h9]
      decide
    · have hd : x.drop 9 = [] := by
        apply List.eq_nil_of_length_eq_zero
        rw [List.length_drop]
        omega
      have hr := take_reassemble x
      rw [hd, List.append_nil] at hr
      exact hr
    · rw [format_grouped_of_clean (by omega) hw hh, grouped, if_neg (by omega),
        List.append_nil]
  · intro x h9 hh hw
    rw [format_grouped_of_clean (by omega) hw hh, grouped, if_pos h9]

/-- Witness for C5's theorem: an 11-character payload gains a fourth group
holding its last two characters. -/
theorem format_group_boundaries_witness :
    format_part_number ("5K0937087AB".toList) =
      ("5K0937087AB".toList).take 3 ++ ' ' :: (("5K0937087AB".toList).drop 3).take 3 ++
        ' ' :: (("5K0937087AB".toList).drop 6).take 3 ++ ' ' :: ("5K0937087AB".toList).drop 9 :=
  format_group_boundaries.2.1 ("5K0937087AB".toList) (by decide) (by decide) (by decide)

end AutoParts
